import Mathlib

/-!
Verification of the execution-context layer of `tokio-trace`
(`src/tokio-trace/src/subscriber.rs`): the per-thread context stack
(`CurrentSpanPerThread`), the dynamically scoped dispatcher override
(`with_default`), and the call-site interest cache.

The context-stack code is embedded directly from the source.  The
dispatcher (`::dispatcher::with_default`, `Dispatch`) and the call-site
interest cache (the `span!` macro and the callsite registry in
`tokio_trace_core`) are not part of the source tree here, only their
callers and tests are; those parts are modelled from the specification,
as marked on each such definition.
-/

namespace TokioTrace

/-- Span identifier (`Id` in the source): an opaque, cheaply clonable
token with no structure beyond equality. -/
abbrev Id := Nat

/-- The per-thread stack of currently entered span ids: the contents of
the `RefCell<Vec<Id>>` held by `CurrentSpanPerThread`.  The end of the
list is the top of the `Vec` (where `push`/`pop`/`last` operate). -/
abbrev Stack := List Id

namespace CurrentSpanPerThread

/-- `CurrentSpanPerThread::id`: `current.borrow().last().cloned()` —
the last element of the `Vec`, or `None` when it is empty. -/
def id (s : Stack) : Option Id := s.getLast?

/-- `CurrentSpanPerThread::enter`: `current.borrow_mut().push(span)` —
append the id at the end of the `Vec`, unconditionally. -/
def enter (s : Stack) (span : Id) : Stack := s ++ [span]

/-- `CurrentSpanPerThread::exit`: `let _ = current.borrow_mut().pop()` —
remove the last element if any, discarding the popped value; `Vec::pop`
on an empty vector returns `None` and leaves it empty, so this is total
and never fails. -/
def exit (s : Stack) : Stack := s.dropLast

/-- `CurrentSpanPerThread::id` as a state transformer, making explicit
that the method only takes a shared borrow of the stack and clones the
last element: it returns the read value together with the (unchanged)
stack. -/
def idRead (s : Stack) : Option Id × Stack := (s.getLast?, s)

end CurrentSpanPerThread

/-- Identity of a `thread_local!` static: two `LocalKey` values denote
the same per-thread slot exactly when their `keyId`s agree. -/
structure LocalKey where
  keyId : Nat
  deriving DecidableEq

/-- The single static `CURRENT: RefCell<Vec<Id>>` declared by the
`thread_local!` block inside `Default::default` for
`CurrentSpanPerThread`.  The block is a function-local item, created
once per program, not once per call: every call of `default()` hands
out a reference to this same static. -/
def CURRENT : LocalKey := ⟨0⟩

/-- The struct `CurrentSpanPerThread` itself: it holds only a
`&'static thread::LocalKey<RefCell<Vec<Id>>>`, i.e. the identity of the
per-thread slot it operates on. -/
structure CurrentSpanPerThread where
  current : LocalKey
  deriving DecidableEq

namespace CurrentSpanPerThread

/-- `impl Default for CurrentSpanPerThread`: returns
`Self { current: &CURRENT }`. -/
def default : CurrentSpanPerThread := ⟨CURRENT⟩

/-- `CurrentSpanPerThread::new`: `Self::default()`. -/
def new : CurrentSpanPerThread := default

/-- `#[derive(Clone)]` on `CurrentSpanPerThread`: cloning copies the
shared reference, not the stack it refers to. -/
def clone (c : CurrentSpanPerThread) : CurrentSpanPerThread := c

end CurrentSpanPerThread

/-- One thread's storage for all thread-local statics, indexed by the
static's identity. -/
abbrev ThreadMem := Nat → Stack

/-- `id()` called through a particular instance: reads the stack of the
static the instance refers to. -/
def idVia (c : CurrentSpanPerThread) (m : ThreadMem) : Option Id :=
  CurrentSpanPerThread.id (m c.current.keyId)

/-- `enter(i)` called through a particular instance: pushes onto the
stack of the static the instance refers to. -/
def enterVia (c : CurrentSpanPerThread) (i : Id) (m : ThreadMem) : ThreadMem :=
  fun k => if k = c.current.keyId then CurrentSpanPerThread.enter (m k) i else m k

/-- The values of `CurrentSpanPerThread` constructible through its
public surface: `new()`, `default()`, and `clone()` of a constructed
value. -/
inductive Constructed : CurrentSpanPerThread → Prop where
  | viaNew : Constructed CurrentSpanPerThread.new
  | viaDefault : Constructed CurrentSpanPerThread.default
  | viaClone (c : CurrentSpanPerThread) (h : Constructed c) :
      Constructed (CurrentSpanPerThread.clone c)

/-- One operation performed on a thread's `CurrentSpanPerThread`. -/
inductive Op where
  | enter (span : Id)
  | exit
  deriving DecidableEq

/-- Effect of one operation on the per-thread `Vec`, as in the source. -/
def step (s : Stack) : Op → Stack
  | Op.enter i => CurrentSpanPerThread.enter s i
  | Op.exit => CurrentSpanPerThread.exit s

/-- Run a sequence of enter/exit calls against the per-thread `Vec`. -/
def run (ops : List Op) (s : Stack) : Stack := ops.foldl step s

/-- Specification-side step, following the spec words: keep the list of
ids of enters not yet matched by an exit, most recent first; an exit
matches (removes) the most recent unmatched enter, and is absorbed when
there is none. -/
def specStep (s : List Id) : Op → List Id
  | Op.enter i => i :: s
  | Op.exit => s.tail

/-- Specification-side state after a sequence of calls: the ids of the
enters not yet matched by an exit, most recent first. -/
def unmatchedEnters (ops : List Op) : List Id := ops.foldl specStep []

/-- Modelled from the spec: a `Subscriber` value, identified by an
opaque token — the subscriber type itself (`tokio_trace_core`) is not
under `src/`; only its handle identity matters here. -/
abbrev Subscriber := Nat

/-- Modelled from the spec: a `Dispatch`, a cheap shareable handle
wrapping one subscriber (`tokio_trace_core`, not under `src/`). -/
abbrev Dispatch := Nat

/-- Modelled from the spec: `Dispatch::new(subscriber)` wraps a
subscriber into a dispatch handle (not under `src/`). -/
def Dispatch.new (s : Subscriber) : Dispatch := s

/-- Modelled from the spec: the per-thread dispatcher state.
`override` is the thread's active-dispatcher slot (`none` means no
scope is installed, so the lazily initialized global default is used);
`user` stands for any other closure-visible per-thread state, e.g. an
invocation counter kept by a test closure. -/
structure DispatchState where
  override : Option Dispatch
  user : Nat
  deriving DecidableEq

/-- Modelled from the spec: the dispatcher visible (active) on the
thread — the installed override if any, else the global default `g`. -/
def visible (g : Dispatch) (st : DispatchState) : Dispatch :=
  st.override.getD g

/-- Modelled from the spec: `dispatcher::with_default(dispatch, f)`
(not under `src/`) — save the thread's current override, install
`dispatch` as the active dispatcher, invoke `f` once, then
unconditionally restore the saved override on every exit path of `f`
before propagating `f`'s result; `f` is modelled as a state transformer
so it can itself observe or change the dispatcher state. -/
def dispatcherWithDefault (d : Dispatch)
    (f : DispatchState → α × DispatchState) (st : DispatchState) :
    α × DispatchState :=
  let prev := st.override
  let res := f { st with override := some d }
  (res.1, { res.2 with override := prev })

/-- `subscriber::with_default(subscriber, f)` from the source: wraps
the subscriber into a `Dispatch` and delegates to
`dispatcher::with_default`. -/
def with_default (s : Subscriber)
    (f : DispatchState → α × DispatchState) (st : DispatchState) :
    α × DispatchState :=
  dispatcherWithDefault (Dispatch.new s) f st

/-- Modelled from the spec: a call-site identity — fixed at definition
time, one per syntactic span-creation expression; two textually
separate expressions have distinct `loc` even when their `name`s are
equal.  The `span!` macro and the callsite registry are not under
`src/`. -/
structure CallSite where
  name : String
  loc : Nat
  deriving DecidableEq

/-- Modelled from the spec: the Call-site Interest Cache state,
together with the instrumentation the tests use — a per-call-site count
of enablement-predicate invocations.  `interest cs = none` is the
`Unevaluated` state, `some b` the `Cached(b)` state. -/
structure CacheState where
  interest : CallSite → Option Bool
  calls : CallSite → Nat

/-- Modelled from the spec: one execution of a call site while the
predicate `p` of the active dispatcher is in effect (not under `src/`):
if the call site's interest is already cached, return it without
invoking the predicate; otherwise invoke `p` exactly once, cache the
boolean, and bump that call site's invocation count. -/
def execCallSite (p : CallSite → Bool) (cs : CallSite) (st : CacheState) :
    Bool × CacheState :=
  match st.interest cs with
  | some b => (b, st)
  | none =>
    (p cs,
      { interest := fun c => if c = cs then some (p cs) else st.interest c,
        calls := fun c => if c = cs then st.calls c + 1 else st.calls c })

/-- Execute one call site `n` times in sequence. -/
def execN (p : CallSite → Bool) (cs : CallSite) :
    Nat → CacheState → CacheState
  | 0, st => st
  | n + 1, st => execN p cs n (execCallSite p cs st).2

/-- Execute call site `a` once, then call site `b` once. -/
def execTwo (p : CallSite → Bool) (a b : CallSite) (st : CacheState) :
    CacheState :=
  (execCallSite p b (execCallSite p a st).2).2

theorem step_reverse (t : List Id) (o : Op) :
    step t.reverse o = (specStep t o).reverse := by
  cases o with
  | enter i => simp [step, specStep, CurrentSpanPerThread.enter]
  | exit =>
    cases t with
    | nil => simp [step, specStep, CurrentSpanPerThread.exit]
    | cons a t =>
      simp [step, specStep, CurrentSpanPerThread.exit, List.reverse_cons,
        List.dropLast_concat]

theorem run_reverse (ops : List Op) (t : List Id) :
    run ops t.reverse = (ops.foldl specStep t).reverse := by
  induction ops generalizing t with
  | nil => rfl
  | cons o ops ih =>
    show run ops (step t.reverse o) = _
    rw [step_reverse, ih]
    rfl

theorem run_append (ops₁ ops₂ : List Op) (s : Stack) :
    run (ops₁ ++ ops₂) s = run ops₂ (run ops₁ s) := by
  simp [run, List.foldl_append]

/-- C1: for every sequence of enter/exit calls on one thread's
`CurrentSpanPerThread`, `id()` returns the id of the most recently
entered span not yet matched by an exit (the head of `unmatchedEnters`),
and `None` exactly when every enter has been matched; and an exit
performed while the stack is empty leaves it empty and does not change
the effect of any subsequent operations. -/
theorem current_span_id_tracks_unmatched_enters (ops : List Op) :
    CurrentSpanPerThread.id (run ops []) = (unmatchedEnters ops).head? ∧
    (∀ pre post : List Op, run pre [] = [] →
      run (pre ++ Op.exit :: post) [] = run (pre ++ post) []) := by
  constructor
  · have h : run ops [] = (unmatchedEnters ops).reverse := by
      have := run_reverse ops []
      simpa [unmatchedEnters] using this
    rw [CurrentSpanPerThread.id, h, List.getLast?_reverse]
  · intro pre post hpre
    rw [run_append, show Op.exit :: post = [Op.exit] ++ post from rfl,
      run_append, run_append, hpre]
    rfl

theorem current_span_id_tracks_unmatched_enters_witness :
    CurrentSpanPerThread.id (run [Op.enter 1, Op.enter 2, Op.exit] []) =
      (unmatchedEnters [Op.enter 1, Op.enter 2, Op.exit]).head? ∧
    run ([Op.enter 1, Op.exit] ++ Op.exit :: [Op.enter 3]) [] =
      run ([Op.enter 1, Op.exit] ++ [Op.enter 3]) [] :=
  ⟨(current_span_id_tracks_unmatched_enters [Op.enter 1, Op.enter 2, Op.exit]).1,
   (current_span_id_tracks_unmatched_enters []).2
     [Op.enter 1, Op.exit] [Op.enter 3] (by decide)⟩

/-- C5: `exit()` on an empty context stack is a silent no-op: modelled
as a total function (as in the source, where the popped `Option` is
discarded, so no failure path exists), it returns normally and leaves
the stack empty. -/
theorem exit_on_empty_stack_is_noop :
    CurrentSpanPerThread.exit ([] : Stack) = ([] : Stack) := rfl

/-- C8: `enter(id)` pushes unconditionally: for every stack (including
stacks already containing the same id) and every id, the result is the
old stack with the id appended, the length grows by exactly one, and
the entered id becomes the current one; no precondition is required. -/
theorem enter_pushes_unconditionally (s : Stack) (i : Id) :
    CurrentSpanPerThread.enter s i = s ++ [i] ∧
    (CurrentSpanPerThread.enter s i).length = s.length + 1 ∧
    CurrentSpanPerThread.id (CurrentSpanPerThread.enter s i) = some i := by
  refine ⟨rfl, by simp [CurrentSpanPerThread.enter], ?_⟩
  simp [CurrentSpanPerThread.id, CurrentSpanPerThread.enter]

/-- C9: `id()` is a pure read: run as a state transformer it leaves the
stack unchanged and returns exactly `id` of the stack; that value is
`none` precisely when the stack is empty, and equals the most recently
pushed id on any stack produced by `enter`. -/
theorem id_is_pure_read (s : Stack) :
    (CurrentSpanPerThread.idRead s).2 = s ∧
    (CurrentSpanPerThread.idRead s).1 = CurrentSpanPerThread.id s ∧
    (CurrentSpanPerThread.id s = none ↔ s = []) ∧
    (∀ (t : Stack) (i : Id),
      CurrentSpanPerThread.id (CurrentSpanPerThread.enter t i) = some i) := by
  refine ⟨rfl, rfl, ?_, ?_⟩
  · simp [CurrentSpanPerThread.id, List.getLast?_eq_none_iff]
  · intro t i
    simp [CurrentSpanPerThread.id, CurrentSpanPerThread.enter]

theorem constructed_eq_default (c : CurrentSpanPerThread)
    (h : Constructed c) : c = CurrentSpanPerThread.default := by
  induction h with
  | viaNew => rfl
  | viaDefault => rfl
  | viaClone c _ ih => exact ih

/-- C10: every value of `CurrentSpanPerThread` obtained via `new()`,
`default()` or `clone()` refers to the one function-local
`thread_local!` static `CURRENT`, so any two such instances are equal
(alias the same per-thread stack), and on a given thread an `enter`
performed through one instance is observed by `id()` called through any
other instance. -/
theorem instances_alias_one_thread_local (a b : CurrentSpanPerThread)
    (ha : Constructed a) (hb : Constructed b) :
    a = b ∧ ∀ (m : ThreadMem) (i : Id), idVia b (enterVia a i m) = some i := by
  have ha' := constructed_eq_default a ha
  have hb' := constructed_eq_default b hb
  subst ha'; subst hb'
  refine ⟨rfl, fun m i => ?_⟩
  simp [idVia, enterVia, CurrentSpanPerThread.id, CurrentSpanPerThread.enter]

theorem instances_alias_one_thread_local_witness :
    CurrentSpanPerThread.new =
      CurrentSpanPerThread.clone CurrentSpanPerThread.default ∧
    idVia (CurrentSpanPerThread.clone CurrentSpanPerThread.default)
      (enterVia CurrentSpanPerThread.new 7 (fun _ => [])) = some 7 := by
  have h := instances_alias_one_thread_local CurrentSpanPerThread.new
    (CurrentSpanPerThread.clone CurrentSpanPerThread.default)
    Constructed.viaNew
    (Constructed.viaClone CurrentSpanPerThread.default Constructed.viaDefault)
  exact ⟨h.1, h.2 (fun _ => []) 7⟩

/-- C3: `with_default` scopes restore LIFO-nested per thread: for every
closure and every starting state, the dispatcher visible after the
scope ends equals the dispatcher visible before it began; in
particular, a scope opened while another scope's dispatcher is
installed restores that enclosing dispatcher (not the global default),
and a scope opened with no override installed restores the global
default. -/
theorem with_default_restores_enclosing_dispatcher (g : Dispatch)
    (s : Subscriber) (f : DispatchState → α × DispatchState)
    (st : DispatchState) :
    visible g (with_default s f st).2 = visible g st ∧
    (∀ (s₂ : Subscriber) (f₂ : DispatchState → α × DispatchState) (u : Nat),
      visible g (with_default s₂ f₂ ⟨some (Dispatch.new s), u⟩).2 =
        Dispatch.new s) ∧
    (st.override = none → visible g (with_default s f st).2 = g) := by
  refine ⟨rfl, fun s₂ f₂ u => rfl, fun h => ?_⟩
  simp [with_default, dispatcherWithDefault, visible, h]

theorem with_default_restores_enclosing_dispatcher_witness :
    visible 0 (with_default 5 (fun σ => ((), σ)) ⟨none, 0⟩).2 =
      visible 0 (⟨none, 0⟩ : DispatchState) ∧
    visible 0 (with_default 5 (fun σ => ((), σ)) ⟨none, 0⟩).2 = 0 :=
  ⟨(with_default_restores_enclosing_dispatcher 0 5 (fun σ => ((), σ))
      ⟨none, 0⟩).1,
   (with_default_restores_enclosing_dispatcher 0 5 (fun σ => ((), σ))
      ⟨none, 0⟩).2.2 rfl⟩

/-- C6: if the closure run by `with_default` ends in a panic (modelled
as an `Except.error` result), the panic propagates unchanged to the
caller, but the previously active dispatcher has already been restored:
the thread's override slot, and hence the visible dispatcher, after the
unwind equal their values before the `with_default` call. -/
theorem with_default_restores_on_panic (g : Dispatch) (s : Subscriber)
    (st : DispatchState) (f : DispatchState → Except String β × DispatchState)
    (p : String)
    (h : (f { st with override := some (Dispatch.new s) }).1 = Except.error p) :
    (with_default s f st).1 = Except.error p ∧
    (with_default s f st).2.override = st.override ∧
    visible g (with_default s f st).2 = visible g st :=
  ⟨h, rfl, rfl⟩

theorem with_default_restores_on_panic_witness :
    (with_default 5 (fun σ => ((Except.error "boom" : Except String Nat), σ))
        ⟨some 9, 0⟩).1 = Except.error "boom" ∧
    (with_default 5 (fun σ => ((Except.error "boom" : Except String Nat), σ))
        ⟨some 9, 0⟩).2.override = some 9 :=
  ⟨(with_default_restores_on_panic 0 5 ⟨some 9, 0⟩
      (fun σ => (Except.error "boom", σ)) "boom" rfl).1,
   (with_default_restores_on_panic 0 5 ⟨some 9, 0⟩
      (fun σ => (Except.error "boom", σ)) "boom" rfl).2.1⟩

/-- C7: `with_default(s, f)` installs `s` (wrapped in a `Dispatch`) as
the calling thread's active dispatcher for the dynamic extent of `f` —
the state `f` runs in has `Dispatch::new s` visible regardless of the
global default — invokes `f` exactly once (a closure that increments a
counter on each invocation leaves it incremented by exactly one), and
returns `f`'s result unchanged. -/
theorem with_default_runs_f_once_with_s_active (s : Subscriber)
    (f : DispatchState → α × DispatchState) (st : DispatchState)
    (g : Dispatch) :
    (with_default s f st).1 = (f { st with override := some (Dispatch.new s) }).1 ∧
    visible g { st with override := some (Dispatch.new s) } = Dispatch.new s ∧
    (∀ v : DispatchState → α,
      (with_default s (fun σ => (v σ, { σ with user := σ.user + 1 })) st).2.user =
        st.user + 1) :=
  ⟨rfl, rfl, fun _ => rfl⟩

theorem exec_cached (p : CallSite → Bool) (cs : CallSite) (st : CacheState)
    (b : Bool) (h : st.interest cs = some b) :
    execCallSite p cs st = (b, st) := by
  simp [execCallSite, h]

theorem execN_cached (p : CallSite → Bool) (cs : CallSite) (st : CacheState)
    (b : Bool) (h : st.interest cs = some b) (n : Nat) :
    execN p cs n st = st := by
  induction n with
  | zero => rfl
  | succ n ih => simp [execN, exec_cached p cs st b h, ih]

/-- C2: for every call site in the `Unevaluated` state and every number
`n ≥ 1` of executions under one active dispatcher predicate, the
predicate is invoked exactly once for that call site — the invocation
count ends at exactly 1 however large `n` is — and the cached interest
is the predicate's one result, so every execution after the first reads
the cache and performs no predicate call. -/
theorem filter_evaluated_once_per_call_site (p : CallSite → Bool)
    (cs : CallSite) (st : CacheState) (n : Nat)
    (hu : st.interest cs = none) (hc : st.calls cs = 0) (hn : 1 ≤ n) :
    (execN p cs n st).calls cs = 1 ∧
    (execN p cs n st).interest cs = some (p cs) := by
  obtain ⟨m, rfl⟩ : ∃ m, n = m + 1 := ⟨n - 1, by omega⟩
  have hstep : (execCallSite p cs st).2.interest cs = some (p cs) ∧
      (execCallSite p cs st).2.calls cs = 1 := by
    simp [execCallSite, hu, hc]
  have : execN p cs (m + 1) st = (execCallSite p cs st).2 := by
    simp [execN, execN_cached p cs _ (p cs) hstep.1 m]
  rw [this]
  exact ⟨hstep.2, hstep.1⟩

theorem filter_evaluated_once_per_call_site_witness :
    (execN (fun _ => true) ⟨"bob", 0⟩ 3
        ⟨fun _ => none, fun _ => 0⟩).calls ⟨"bob", 0⟩ = 1 ∧
    (execN (fun _ => true) ⟨"bob", 0⟩ 3
        ⟨fun _ => none, fun _ => 0⟩).interest ⟨"bob", 0⟩ = some true :=
  filter_evaluated_once_per_call_site (fun _ => true) ⟨"bob", 0⟩
    ⟨fun _ => none, fun _ => 0⟩ 3 rfl rfl (by decide)

/-- C4: two call sites with the same name but distinct source locations
are cached and evaluated independently: executing each once from the
`Unevaluated` state invokes the predicate exactly once for each (both
counts end at 1), each gets its own cached interest computed from its
own identity, and executing the first leaves the second's cache entry
untouched — the cached decision is never shared. -/
theorem call_sites_with_same_name_independent (p : CallSite → Bool)
    (name : String) (l₁ l₂ : Nat) (st : CacheState) (hne : l₁ ≠ l₂)
    (hu₁ : st.interest ⟨name, l₁⟩ = none)
    (hu₂ : st.interest ⟨name, l₂⟩ = none)
    (hc₁ : st.calls ⟨name, l₁⟩ = 0) (hc₂ : st.calls ⟨name, l₂⟩ = 0) :
    (execTwo p ⟨name, l₁⟩ ⟨name, l₂⟩ st).calls ⟨name, l₁⟩ = 1 ∧
    (execTwo p ⟨name, l₁⟩ ⟨name, l₂⟩ st).calls ⟨name, l₂⟩ = 1 ∧
    (execTwo p ⟨name, l₁⟩ ⟨name, l₂⟩ st).interest ⟨name, l₁⟩ =
      some (p ⟨name, l₁⟩) ∧
    (execTwo p ⟨name, l₁⟩ ⟨name, l₂⟩ st).interest ⟨name, l₂⟩ =
      some (p ⟨name, l₂⟩) ∧
    (execCallSite p ⟨name, l₁⟩ st).2.interest ⟨name, l₂⟩ =
      st.interest ⟨name, l₂⟩ := by
  have hdiff : (⟨name, l₂⟩ : CallSite) ≠ ⟨name, l₁⟩ := by
    intro h
    exact hne (congrArg CallSite.loc h).symm
  simp [execTwo, execCallSite, hu₁, hu₂, hc₁, hc₂, hdiff, hne]

theorem call_sites_with_same_name_independent_witness :
    (execTwo (fun c => c.loc = 1) ⟨"charlie", 0⟩ ⟨"charlie", 1⟩
        ⟨fun _ => none, fun _ => 0⟩).calls ⟨"charlie", 0⟩ = 1 ∧
    (execTwo (fun c => c.loc = 1) ⟨"charlie", 0⟩ ⟨"charlie", 1⟩
        ⟨fun _ => none, fun _ => 0⟩).calls ⟨"charlie", 1⟩ = 1 ∧
    (execTwo (fun c => c.loc = 1) ⟨"charlie", 0⟩ ⟨"charlie", 1⟩
        ⟨fun _ => none, fun _ => 0⟩).interest ⟨"charlie", 0⟩ = some false ∧
    (execTwo (fun c => c.loc = 1) ⟨"charlie", 0⟩ ⟨"charlie", 1⟩
        ⟨fun _ => none, fun _ => 0⟩).interest ⟨"charlie", 1⟩ = some true := by
  have h := call_sites_with_same_name_independent (fun c => c.loc = 1)
    "charlie" 0 1 ⟨fun _ => none, fun _ => 0⟩ (by decide) rfl rfl rfl rfl
  exact ⟨h.1, h.2.1, by simpa using h.2.2.1, by simpa using h.2.2.2.1⟩

end TokioTrace
